import Mathlib

/-!
Shallow embedding of the astronomical computation core of the Astro-Engine
repository (src/app/src/ephemeris.js and src/app/src/birthChart.js).

JavaScript numbers are modelled as exact rationals (ℚ).  The JavaScript `%`
operator (remainder with the sign of the dividend, truncated division) is
modelled by `jsMod`.  Transcendental library functions (`Math.sin`,
`Math.cos`, `Math.tan`, `Math.sqrt`, `Math.atan2`) and the constant
`Math.PI` have no rational realisation; they are abstracted as the fields
of a `JsMath` structure over which all theorems quantify, so every
definition stays computable.
-/

namespace AstroEngine

/-- Truncation toward zero, the rounding used by the JavaScript `%` operator. -/
def jsTrunc (q : ℚ) : ℤ := if q < 0 then ⌈q⌉ else ⌊q⌋

/-- The JavaScript remainder operator `a % b`: `a - b * trunc (a / b)`. -/
def jsMod (a b : ℚ) : ℚ := a - b * jsTrunc (a / b)

/-- `normalizeAngle` from ephemeris.js lines 320-324:
`angle = angle % 360; if (angle < 0) angle += 360; return angle`. -/
def normalizeAngle (angle : ℚ) : ℚ :=
  let a := jsMod angle 360
  if a < 0 then a + 360 else a

/-! ## Aspect detection (ephemeris.js lines 47-53 and 407-426) -/

/-- One entry of the `ASPECTS` configuration object. -/
structure AspectConfig where
  angle : ℚ
  orb : ℚ
  symbol : String
  nature : String
deriving DecidableEq

/-- The `ASPECTS` table of ephemeris.js lines 47-53, in object-literal
insertion order (the order `Object.entries` iterates). -/
def ASPECTS : List (String × AspectConfig) :=
  [("conjunction", ⟨0, 8, "☌", "neutral"⟩),
   ("sextile", ⟨60, 6, "⚹", "harmonious"⟩),
   ("square", ⟨90, 8, "□", "challenging"⟩),
   ("trine", ⟨120, 8, "△", "harmonious"⟩),
   ("opposition", ⟨180, 8, "☍", "challenging"⟩)]

/-- The aspect object returned by `calculateAspect` (the source's `exact`
field is called `exactFlag` here because `exact` is a Lean keyword). -/
structure AspectResult where
  name : String
  angle : ℚ
  orb : ℚ
  symbol : String
  nature : String
  exactFlag : Bool
deriving DecidableEq

/-- Lines 408-409 of `calculateAspect`: absolute separation folded to
`≤ 180°` (`let diff = Math.abs(long1 - long2); if (diff > 180) diff = 360 - diff`). -/
def foldedSeparation (long1 long2 : ℚ) : ℚ :=
  let diff := |long1 - long2|
  if diff > 180 then 360 - diff else diff

/-- `calculateAspect` from ephemeris.js lines 407-426: fold the separation,
then return the first `ASPECTS` entry whose orb tolerance contains it. -/
def calculateAspect (long1 long2 : ℚ) : Option AspectResult :=
  let diff := foldedSeparation long1 long2
  (ASPECTS.find? fun p => |diff - p.2.angle| ≤ p.2.orb).map fun p =>
    ⟨p.1, p.2.angle, |diff - p.2.angle|, p.2.symbol, p.2.nature,
     decide (|diff - p.2.angle| < 1)⟩

/-! ## Zodiac decomposition (ephemeris.js lines 24-28 and 89-104) -/

/-- The `SIGNS` array of ephemeris.js lines 24-28. -/
def SIGNS : List String :=
  ["Aries", "Taurus", "Gemini", "Cancer",
   "Leo", "Virgo", "Libra", "Scorpio",
   "Sagittarius", "Capricorn", "Aquarius", "Pisces"]

/-- The object returned by `getZodiacPosition` (the source's `formatted`
display string is omitted: it is string assembly carrying no further data). -/
structure ZodiacPosition where
  sign : String
  signIndex : ℤ
  degree : ℤ
  minutes : ℤ
  longitude : ℚ
deriving DecidableEq

/-- `getZodiacPosition` from ephemeris.js lines 89-104:
`((longitude % 360) + 360) % 360`, sign index by `Math.floor(/30)`,
whole degrees and whole arc-minutes within the sign. -/
def getZodiacPosition (longitude : ℚ) : ZodiacPosition :=
  let normalizedLong := jsMod (jsMod longitude 360 + 360) 360
  let signIndex := ⌊normalizedLong / 30⌋
  let degreeInSign := jsMod normalizedLong 30
  let degree := ⌊degreeInSign⌋
  let minutes := ⌊(degreeInSign - degree) * 60⌋
  ⟨SIGNS.getD signIndex.toNat "", signIndex, degree, minutes, normalizedLong⟩

/-! ## Time conversion (ephemeris.js lines 70-84) -/

/-- `dateToJulianDay` from ephemeris.js lines 70-84: the Meeus Gregorian
Julian-Day algorithm (January/February shifted into the previous year,
century correction `B`), with `Math.floor` modelled by `Int.floor` on ℚ. -/
def dateToJulianDay (year month day : ℤ) (hour : ℚ) : ℚ :=
  let y := if month ≤ 2 then year - 1 else year
  let m := if month ≤ 2 then month + 12 else month
  let A : ℤ := ⌊(y : ℚ) / 100⌋
  let B : ℤ := 2 - A + ⌊(A : ℚ) / 4⌋
  (⌊(365.25 : ℚ) * ((y : ℚ) + 4716)⌋ : ℚ) +
    (⌊(30.6001 : ℚ) * ((m : ℚ) + 1)⌋ : ℚ) +
    (day : ℚ) + hour / 24 + (B : ℚ) - 1524.5

/-- Proleptic Gregorian leap-year rule. -/
def gregorianLeap (y : ℤ) : Bool :=
  y % 4 == 0 && (y % 100 != 0 || y % 400 == 0)

/-- Length of month `m` of proleptic Gregorian year `y`. -/
def daysInMonthG (y m : ℤ) : ℤ :=
  if m = 2 then (if gregorianLeap y then 29 else 28)
  else if m = 4 ∨ m = 6 ∨ m = 9 ∨ m = 11 then 30 else 31

/-- Integer skeleton of `dateToJulianDay`: the same computation with the
rational floors replaced by integer division, excluding the `hour/24` and
`-1524.5` terms. -/
def JDNint (y m d : ℤ) : ℤ :=
  let y' := if m ≤ 2 then y - 1 else y
  let m' := if m ≤ 2 then m + 12 else m
  let A := y' / 100
  let B := 2 - A + A / 4
  1461 * (y' + 4716) / 4 + 306001 * (m' + 1) / 10000 + d + B

/-- Validity of a civil instant: month in 1-12, day valid in that month of
that proleptic Gregorian year, fractional hour in `[0,24)`. -/
def ValidCivil (y m d : ℤ) (h : ℚ) : Prop :=
  1 ≤ m ∧ m ≤ 12 ∧ 1 ≤ d ∧ d ≤ daysInMonthG y m ∧ 0 ≤ h ∧ h < 24

instance (y m d : ℤ) (h : ℚ) : Decidable (ValidCivil y m d h) := by
  unfold ValidCivil; infer_instance

/-- Lexicographic order on civil instants. -/
def CivilLt (y1 m1 d1 : ℤ) (h1 : ℚ) (y2 m2 d2 : ℤ) (h2 : ℚ) : Prop :=
  y1 < y2 ∨ (y1 = y2 ∧ (m1 < m2 ∨ (m1 = m2 ∧ (d1 < d2 ∨ (d1 = d2 ∧ h1 < h2)))))

instance (y1 m1 d1 : ℤ) (h1 : ℚ) (y2 m2 d2 : ℤ) (h2 : ℚ) :
    Decidable (CivilLt y1 m1 d1 h1 y2 m2 d2 h2) := by
  unfold CivilLt; infer_instance

/-! ## Chart Assembler local-to-UTC normalization (birthChart.js lines 26-58) -/

/-- `timeToDecimal` from ephemeris.js lines 443-445. -/
def timeToDecimal (hours minutes seconds : ℚ) : ℚ :=
  hours + minutes / 60 + seconds / 3600

/-- `getDaysInMonth` from birthChart.js lines 102-104, i.e.
`new Date(year, month, 0).getDate()`: the length of the 1-indexed `month`.
The JavaScript `Date` constructor maps year arguments 0-99 to 1900-1999,
so that quirk is part of the semantics. -/
def getDaysInMonth (month year : ℤ) : ℤ :=
  let y := if 0 ≤ year ∧ year ≤ 99 then year + 1900 else year
  if month = 2 then (if gregorianLeap y then 29 else 28)
  else if month = 4 ∨ month = 6 ∨ month = 9 ∨ month = 11 then 30 else 31

/-- The UTC calendar instant produced by the Chart Assembler's
normalization step. -/
structure UTCDate where
  year : ℤ
  month : ℤ
  day : ℤ
  hour : ℚ
deriving DecidableEq

/-- The local-to-UTC normalization step of `calculateBirthChart`
(birthChart.js lines 26-58): UTC decimal hour is local decimal time minus
the timezone offset; a negative hour rolls the date back one day and an
hour `≥ 24` rolls it forward, respecting month/year boundaries; the stored
hour is `((utcHour % 24) + 24) % 24`. -/
def calculateBirthChartUTC (year month day : ℤ) (hour minute tz : ℚ) : UTCDate :=
  let utcHour := timeToDecimal hour minute 0 - tz
  let ymd :=
    if utcHour < 0 then
      let d := day - 1
      if d < 1 then
        let m := month - 1
        let my := if m < 1 then (12, year - 1) else (m, year)
        (my.2, my.1, getDaysInMonth my.1 my.2)
      else (year, month, d)
    else if utcHour ≥ 24 then
      let d := day + 1
      if d > getDaysInMonth month year then
        let m := month + 1
        if m > 12 then (year + 1, 1, 1) else (year, m, 1)
      else (year, month, d)
    else (year, month, day)
  ⟨ymd.1, ymd.2.1, ymd.2.2, jsMod (jsMod utcHour 24 + 24) 24⟩

/-! ## House cusps and house placement (ephemeris.js lines 329-402)

The trigonometric library functions used by the source (`Math.sin`,
`Math.cos`, `Math.tan`, `Math.sqrt`, `Math.atan2`, and the constant
`Math.PI`) have no exact rational realisation; they are abstracted as the
fields of a `JsMath` structure so that every embedded function remains
computable, and theorems quantify over the library. -/

/-- Abstraction of the JavaScript `Math` library members that the source
uses. -/
structure JsMath where
  sin : ℚ → ℚ
  cos : ℚ → ℚ
  tan : ℚ → ℚ
  sqrt : ℚ → ℚ
  atan2 : ℚ → ℚ → ℚ
  pi : ℚ

/-- `DEG_TO_RAD = Math.PI / 180` (ephemeris.js line 56). -/
def DEG_TO_RAD (mth : JsMath) : ℚ := mth.pi / 180

/-- `RAD_TO_DEG = 180 / Math.PI` (ephemeris.js line 57). -/
def RAD_TO_DEG (mth : JsMath) : ℚ := 180 / mth.pi

/-- `J2000 = 2451545.0` (ephemeris.js line 58). -/
def J2000 : ℚ := 2451545.0

/-- The equal-interval cusp table built by `calculateHouses` lines 353-360:
`cusps[i] = normalizeAngle(ascendant + (i - 1) * 30)` for `i = 1..12`. -/
def EqualCusps (ascendant : ℚ) (i : ℕ) : ℚ :=
  normalizeAngle (ascendant + ((i : ℚ) - 1) * 30)

/-- The frame returned by `calculateHouses` (each cusp's zodiac
decomposition, derivable by `getZodiacPosition`, is not duplicated here). -/
structure HouseFrame where
  cusps : ℕ → ℚ
  ascendant : ℚ
  mc : ℚ
  armc : ℚ

/-- `calculateHouses` from ephemeris.js lines 329-375: sidereal time,
Ascendant and Midheaven via `atan2`, then twelve equal-interval cusps
starting at the Ascendant. -/
def calculateHouses (mth : JsMath) (JD latitude longitude : ℚ) : HouseFrame :=
  let T := (JD - J2000) / 36525
  let GMST := 280.46061837 + 360.98564736629 * (JD - J2000) +
    0.000387933 * T * T - T * T * T / 38710000
  let LST := normalizeAngle (GMST + longitude)
  let latRad := latitude * DEG_TO_RAD mth
  let obliquity := 23.439 - 0.00013 * T
  let oblRad := obliquity * DEG_TO_RAD mth
  let lstRad := LST * DEG_TO_RAD mth
  let ascendant := normalizeAngle
    (mth.atan2 (mth.cos lstRad)
      (-(mth.sin lstRad * mth.cos oblRad + mth.tan latRad * mth.sin oblRad)) *
      RAD_TO_DEG mth)
  let mc := normalizeAngle
    (mth.atan2 (mth.sin lstRad) (mth.cos lstRad * mth.cos oblRad) * RAD_TO_DEG mth)
  ⟨EqualCusps ascendant, ascendant, mc, LST⟩

/-- Membership of a longitude in the half-open cusp interval `[s, e)`,
wrapping at 360°: exactly the containment test of `getHousePosition`
lines 391-399. -/
def inWrappedInterval (p s e : ℚ) : Prop :=
  if e < s then p ≥ s ∨ p < e else p ≥ s ∧ p < e

instance (p s e : ℚ) : Decidable (inWrappedInterval p s e) := by
  unfold inWrappedInterval; infer_instance

/-- One iteration of the `getHousePosition` loop: loop index `i` in 0-11
tests cusp `i+1` against cusp `(i+1) % 12 + 1`. -/
def houseIntervalTest (p : ℚ) (cusps : ℕ → ℚ) (i : ℕ) : Bool :=
  decide (inWrappedInterval p (cusps (i + 1)) (cusps ((i + 1) % 12 + 1)))

/-- `getHousePosition` from ephemeris.js lines 380-402: first loop
iteration whose interval contains the longitude wins; the trailing
`return 1` is the fallback when no interval matches. -/
def getHousePosition (planetLongitude : ℚ) (houseCusps : ℕ → ℚ) : ℕ :=
  match (List.range 12).find? (fun i => houseIntervalTest planetLongitude houseCusps i) with
  | some i => i + 1
  | none => 1

/-- A concrete instantiation of the abstract math library, used to
evaluate witnesses on closed inputs. -/
def mathStub : JsMath :=
  ⟨fun _ => 0, fun _ => 0, fun _ => 0, fun _ => 0, fun _ _ => 0, 0⟩

/-! ## Planetary positions (ephemeris.js lines 107-315) -/

/-- The plain position object returned by the per-body calculators. -/
structure PlanetPosition where
  longitude : ℚ
  latitude : ℚ
  distance : ℚ
  longitudeSpeed : ℚ
  isRetrograde : Bool
deriving DecidableEq

/-- `calculateSunPosition` from ephemeris.js lines 109-137: mean longitude
and anomaly as polynomials in Julian centuries, three-term equation of
center, fixed speed `360/365.25`, never retrograde. -/
def calculateSunPosition (mth : JsMath) (JD : ℚ) : PlanetPosition :=
  let T := (JD - J2000) / 36525
  let L0 := normalizeAngle (280.4664567 + 360007.6982779 * T + 0.03032028 * T * T)
  let M := normalizeAngle (357.5291092 + 35999.0502909 * T - 0.0001536 * T * T)
  let Mrad := M * DEG_TO_RAD mth
  let C := (1.9146 - 0.004817 * T - 0.000014 * T * T) * mth.sin Mrad +
    (0.019993 - 0.000101 * T) * mth.sin (2 * Mrad) +
    0.00029 * mth.sin (3 * Mrad)
  let longitude := normalizeAngle (L0 + C)
  ⟨longitude, 0,
   1.00014 - 0.01671 * mth.cos Mrad - 0.00014 * mth.cos (2 * Mrad),
   360 / 365.25, false⟩

/-- `calculateMoonPosition` from ephemeris.js lines 142-189: truncated
ELP2000 series, constant distance, fixed speed, never retrograde. -/
def calculateMoonPosition (mth : JsMath) (JD : ℚ) : PlanetPosition :=
  let T := (JD - J2000) / 36525
  let Lm := normalizeAngle (218.3164591 + 481267.88134236 * T - 0.0015786 * T * T)
  let D := normalizeAngle (297.8502042 + 445267.1115168 * T - 0.0016300 * T * T) *
    DEG_TO_RAD mth
  let M := normalizeAngle (357.5291092 + 35999.0502909 * T) * DEG_TO_RAD mth
  let Mm := normalizeAngle (134.9634114 + 477198.8676313 * T + 0.0089970 * T * T) *
    DEG_TO_RAD mth
  let F := normalizeAngle (93.2720993 + 483202.0175273 * T - 0.0034029 * T * T) *
    DEG_TO_RAD mth
  let longitude := normalizeAngle (Lm +
    6.29 * mth.sin Mm +
    -1.27 * mth.sin (Mm - 2 * D) +
    0.66 * mth.sin (2 * D) +
    0.21 * mth.sin (2 * Mm) +
    -0.19 * mth.sin M +
    -0.11 * mth.sin (2 * F))
  let latitude := 5.13 * mth.sin F +
    0.28 * mth.sin (Mm + F) +
    -0.28 * mth.sin (F - Mm) +
    -0.17 * mth.sin (F - 2 * D)
  ⟨longitude, latitude, 385000, 360 / 27.32, false⟩

/-- One body's Keplerian orbital-element record (epoch values and
per-century rates), ephemeris.js lines 222-263. -/
structure OrbitalElements where
  a : ℚ
  e : ℚ
  i : ℚ
  L : ℚ
  w : ℚ
  node : ℚ
  aR : ℚ
  eR : ℚ
  iR : ℚ
  LR : ℚ
  wR : ℚ
  nodeR : ℚ
deriving DecidableEq

/-- The Mars element set, also the silent fallback for unrecognized codes
(`elements[planetCode] || elements[PLANETS.MARS]`, line 265). -/
def marsElements : OrbitalElements :=
  ⟨1.524, 0.0934, 1.85, 355.43, 336.04, 49.56, 0, 0.00009, -0.006, 19140.30, 0.45, -0.29⟩

/-- The keyed element lookup of `calculateOuterPlanet` lines 222-265.
Numeric body codes follow the `PLANETS` table (lines 8-21): Mercury 2,
Venus 3, Mars 4, Jupiter 5, Saturn 6, Uranus 7, Neptune 8, Pluto 9, true
node 11, Chiron 15; the node's epoch longitude and rate depend on `T`,
exactly as in the source object literal. Any other code falls back to
Mars' elements. -/
def planetElements (T : ℚ) (code : ℤ) : OrbitalElements :=
  if code = 2 then
    ⟨0.387, 0.2056, 7.00, 252.25, 77.46, 48.33, 0, 0.00002, -0.003, 149472.67, 0.16, -0.13⟩
  else if code = 3 then
    ⟨0.723, 0.0068, 3.39, 181.98, 131.53, 76.68, 0, -0.00005, -0.008, 58517.82, 0.004, -0.28⟩
  else if code = 4 then marsElements
  else if code = 5 then
    ⟨5.203, 0.0484, 1.31, 34.33, 14.33, 100.46, 0, 0.00016, -0.019, 3034.90, 0.22, 0.18⟩
  else if code = 6 then
    ⟨9.537, 0.0542, 2.49, 50.08, 93.06, 113.64, 0, -0.00004, 0.004, 1222.11, 0.54, -0.25⟩
  else if code = 7 then
    ⟨19.19, 0.0472, 0.77, 314.20, 173.00, 74.01, 0, -0.00003, -0.001, 428.49, 0.09, 0.05⟩
  else if code = 8 then
    ⟨30.07, 0.0086, 1.77, 304.22, 48.12, 131.79, 0, 0.00001, 0.003, 218.46, 0.01, -0.01⟩
  else if code = 9 then
    ⟨39.48, 0.2488, 17.14, 238.96, 224.09, 110.30, 0, 0.00006, 0.004, 145.18, -0.01, -0.03⟩
  else if code = 11 then
    ⟨1, 0, 0, 125.08 - 19.34 * T, 0, 0, 0, 0, 0, -19.34 * 36525, 0, 0⟩
  else if code = 15 then
    ⟨13.65, 0.379, 6.93, 209.41, 339.26, 209.26, 0, 0, 0, 72.22, 0, 0⟩
  else marsElements

/-- `calculateOuterPlanet` from ephemeris.js lines 218-315: linear element
propagation, three-term equation of center, true-node early return, and
the elongation-based retrograde heuristic for codes past Mars. -/
def calculateOuterPlanet (mth : JsMath) (JD : ℚ) (planetCode : ℤ) : PlanetPosition :=
  let T := (JD - J2000) / 36525
  let el := planetElements T planetCode
  let L := normalizeAngle (el.L + el.LR * T)
  let w := normalizeAngle (el.w + el.wR * T)
  let e := el.e + el.eR * T
  let M := normalizeAngle (L - w)
  let Mrad := M * DEG_TO_RAD mth
  let C := (2 * e - e * e * e / 4) * mth.sin Mrad +
    (5 / 4 * e * e) * mth.sin (2 * Mrad) +
    (13 / 12 * e * e * e) * mth.sin (3 * Mrad)
  let Cdeg := C * RAD_TO_DEG mth
  let v := M + Cdeg
  let longitude := normalizeAngle (v + w)
  if planetCode = 11 then
    ⟨normalizeAngle el.L, 0, 1, -0.053, true⟩
  else
    let dailyMotion := 360 / (el.a * el.a * mth.sqrt el.a * 365.25)
    let sunPos := calculateSunPosition mth JD
    let elongation := normalizeAngle (longitude - sunPos.longitude)
    let isRetrograde := decide (planetCode > 4 ∧ (elongation > 120 ∧ elongation < 240))
    ⟨longitude,
     el.i * mth.sin ((longitude - el.node) * DEG_TO_RAD mth),
     el.a * (1 - e * mth.cos Mrad),
     dailyMotion * (if isRetrograde then -1 else 1),
     isRetrograde⟩

/-- The merged position object returned by `calculatePlanetPosition`
(ephemeris.js lines 194-213): the per-body result spread together with its
zodiac decomposition, whose normalized `longitude` wins the spread. -/
structure FullPosition where
  longitude : ℚ
  latitude : ℚ
  distance : ℚ
  longitudeSpeed : ℚ
  isRetrograde : Bool
  sign : String
  signIndex : ℤ
  degree : ℤ
  minutes : ℤ
deriving DecidableEq

/-- `calculatePlanetPosition` from ephemeris.js lines 194-213: dispatch on
the body code (Sun 0, Moon 1, everything else to `calculateOuterPlanet`),
then merge in the zodiac placement. -/
def calculatePlanetPosition (mth : JsMath) (JD : ℚ) (planetCode : ℤ) : FullPosition :=
  let result :=
    if planetCode = 0 then calculateSunPosition mth JD
    else if planetCode = 1 then calculateMoonPosition mth JD
    else calculateOuterPlanet mth JD planetCode
  let position := getZodiacPosition result.longitude
  ⟨position.longitude, result.latitude, result.distance, result.longitudeSpeed,
   result.isRetrograde, position.sign, position.signIndex, position.degree,
   position.minutes⟩

/-- A library stub whose square root is the positive constant 1, used to
instantiate C3's hypotheses on a closed input. -/
def mathStubOne : JsMath :=
  ⟨fun _ => 0, fun _ => 0, fun _ => 0, fun _ => 1, fun _ _ => 0, 0⟩

/-! ## Verified properties -/

/-! Basic lemmas about `jsMod` and `normalizeAngle`. -/

theorem jsTrunc_eq_floor {q : ℚ} (h : 0 ≤ q) : jsTrunc q = ⌊q⌋ := by
  simp [jsTrunc, not_lt.mpr h]

theorem jsTrunc_eq_ceil {q : ℚ} (h : q < 0) : jsTrunc q = ⌈q⌉ := by
  simp [jsTrunc, h]

theorem jsMod_nonneg_eq {a b : ℚ} (ha : 0 ≤ a) (hb : 0 < b) :
    jsMod a b = a - b * ⌊a / b⌋ := by
  rw [jsMod, jsTrunc_eq_floor (div_nonneg ha hb.le)]

theorem jsMod_nonneg_bounds {a b : ℚ} (ha : 0 ≤ a) (hb : 0 < b) :
    0 ≤ jsMod a b ∧ jsMod a b < b := by
  rw [jsMod_nonneg_eq ha hb]
  constructor
  · have h1 : (⌊a / b⌋ : ℚ) ≤ a / b := Int.floor_le _
    nlinarith [mul_le_mul_of_nonneg_left h1 hb.le, mul_div_cancel₀ a hb.ne']
  · have h2 : a / b < ⌊a / b⌋ + 1 := Int.lt_floor_add_one _
    nlinarith [mul_lt_mul_of_pos_left h2 hb, mul_div_cancel₀ a hb.ne']

theorem jsMod_neg_bounds {a b : ℚ} (ha : a < 0) (hb : 0 < b) :
    -b < jsMod a b ∧ jsMod a b ≤ 0 := by
  have hq : a / b < 0 := div_neg_of_neg_of_pos ha hb
  rw [jsMod, jsTrunc_eq_ceil hq]
  constructor
  · have h2 : (⌈a / b⌉ : ℚ) < a / b + 1 := by
      have := Int.ceil_lt_add_one (a / b)
      linarith
    nlinarith [mul_lt_mul_of_pos_left h2 hb, mul_div_cancel₀ a hb.ne']
  · have h1 : a / b ≤ ⌈a / b⌉ := Int.le_ceil _
    nlinarith [mul_le_mul_of_nonneg_left h1 hb.le, mul_div_cancel₀ a hb.ne']

theorem jsMod_sub_int (a b : ℚ) : ∃ k : ℤ, a - jsMod a b = b * k :=
  ⟨jsTrunc (a / b), by simp [jsMod]⟩

/-- `normalizeAngle` always lands in `[0, 360)`. -/
theorem normalizeAngle_mem (a : ℚ) :
    0 ≤ normalizeAngle a ∧ normalizeAngle a < 360 := by
  unfold normalizeAngle
  rcases le_or_lt 0 a with ha | ha
  · obtain ⟨h0, h1⟩ := jsMod_nonneg_bounds ha (by norm_num : (0:ℚ) < 360)
    simp only [not_lt.mpr h0, if_false]
    exact ⟨h0, h1⟩
  · obtain ⟨h0, h1⟩ := jsMod_neg_bounds ha (by norm_num : (0:ℚ) < 360)
    rcases lt_or_le (jsMod a 360) 0 with h | h
    · simp only [h, if_true]
      constructor <;> linarith
    · simp only [not_lt.mpr h, if_false]
      constructor <;> linarith

/-- `normalizeAngle a` differs from `a` by an integer multiple of `360`. -/
theorem normalizeAngle_sub_int (a : ℚ) :
    ∃ k : ℤ, a - normalizeAngle a = 360 * k := by
  obtain ⟨k, hk⟩ := jsMod_sub_int a 360
  unfold normalizeAngle
  rcases lt_or_le (jsMod a 360) 0 with h | h
  · refine ⟨k - 1, ?_⟩
    simp only [if_pos h]
    push_cast
    linarith
  · refine ⟨k, ?_⟩
    simp only [if_neg (not_lt.mpr h)]
    exact hk

/-- `normalizeAngle` is the identity on `[0, 360)`. -/
theorem normalizeAngle_eq_self {a : ℚ} (h0 : 0 ≤ a) (h1 : a < 360) :
    normalizeAngle a = a := by
  have hfloor : ⌊a / 360⌋ = 0 := by
    rw [Int.floor_eq_zero_iff]
    constructor
    · exact div_nonneg h0 (by norm_num)
    · rw [div_lt_one (by norm_num : (0:ℚ) < 360)]; exact h1
  have : jsMod a 360 = a := by
    rw [jsMod_nonneg_eq h0 (by norm_num), hfloor]; ring
  unfold normalizeAngle
  rw [this, if_neg (not_lt.mpr h0)]

/-- Characterisation: if `a = r + 360k` with `r ∈ [0,360)`, then
`normalizeAngle a = r`. -/
theorem normalizeAngle_eq_of {a r : ℚ} {k : ℤ} (h : a = r + 360 * k)
    (h0 : 0 ≤ r) (h1 : r < 360) : normalizeAngle a = r := by
  obtain ⟨k', hk'⟩ := normalizeAngle_sub_int a
  obtain ⟨hn0, hn1⟩ := normalizeAngle_mem a
  have hdiff : r - normalizeAngle a = 360 * ((k' : ℚ) - k) := by
    linarith
  have hz : ((k' - k : ℤ) : ℚ) = 0 := by
    have hb1 : (360 : ℚ) * ((k' : ℚ) - k) < 360 := by linarith
    have hb2 : (-360 : ℚ) < 360 * ((k' : ℚ) - k) := by linarith
    have h1' : ((k' - k : ℤ) : ℚ) < 1 := by push_cast; linarith
    have h2' : (-1 : ℚ) < ((k' - k : ℤ) : ℚ) := by push_cast; linarith
    have hlt : k' - k < 1 := by exact_mod_cast h1'
    have hgt : (-1 : ℤ) < k' - k := by exact_mod_cast h2'
    have : k' - k = 0 := by omega
    simp [this]
  have : r = normalizeAngle a := by
    have : ((k' : ℚ) - k) = 0 := by push_cast at hz; linarith
    rw [this] at hdiff; linarith
  linarith

/-- Adding an integer multiple of 360 does not change the normalized angle. -/
theorem normalizeAngle_add_int (a : ℚ) (k : ℤ) :
    normalizeAngle (a + 360 * k) = normalizeAngle a := by
  obtain ⟨k', hk'⟩ := normalizeAngle_sub_int a
  obtain ⟨h0, h1⟩ := normalizeAngle_mem a
  exact normalizeAngle_eq_of (k := k + k') (by push_cast; linarith) h0 h1

/-- Normalizing is idempotent. -/
theorem normalizeAngle_idem (a : ℚ) :
    normalizeAngle (normalizeAngle a) = normalizeAngle a :=
  normalizeAngle_eq_self (normalizeAngle_mem a).1 (normalizeAngle_mem a).2

/-- C4: a folded separation of exactly 90° classifies as the square aspect
with orb 0 and exact flag true; a folded separation of 98.5° yields no
aspect, since the deviation 8.5° exceeds the square's orb of 8° and no
other table entry matches. -/
theorem claim_C4 (a b : ℚ) :
    (foldedSeparation a b = 90 →
      calculateAspect a b = some ⟨"square", 90, 0, "□", "challenging", true⟩) ∧
    (foldedSeparation a b = 197/2 → calculateAspect a b = none) := by
  constructor
  · intro h
    have h1 : ASPECTS.find? (fun p => |(90:ℚ) - p.2.angle| ≤ p.2.orb) =
        some ("square", ⟨90, 8, "□", "challenging"⟩) := by
      rw [ASPECTS, List.find?_cons_of_neg, List.find?_cons_of_neg,
          List.find?_cons_of_pos]
      · norm_num [abs_of_nonneg]
      · norm_num [abs_of_nonneg]
      · norm_num [abs_of_nonneg]
    rw [calculateAspect, h, h1]
    norm_num [abs_of_nonneg]
  · intro h
    have h1 : ASPECTS.find? (fun p => |(197/2:ℚ) - p.2.angle| ≤ p.2.orb) =
        none := by
      rw [ASPECTS, List.find?_cons_of_neg, List.find?_cons_of_neg,
          List.find?_cons_of_neg, List.find?_cons_of_neg,
          List.find?_cons_of_neg]
      · rfl
      all_goals norm_num [abs_of_nonneg, abs_of_nonpos]
    rw [calculateAspect, h, h1]
    rfl

/-- Witness for C4 at separations realised by the pairs (0°, 90°) and
(0°, 98.5°). -/
theorem claim_C4_witness :
    foldedSeparation 0 90 = 90 ∧ foldedSeparation 0 (197/2) = 197/2 ∧
    calculateAspect 0 90 = some ⟨"square", 90, 0, "□", "challenging", true⟩ ∧
    calculateAspect 0 (197/2) = none := by
  have hf1 : foldedSeparation 0 90 = 90 := by
    norm_num [foldedSeparation, abs_of_nonneg]
  have hf2 : foldedSeparation 0 (197/2) = 197/2 := by
    norm_num [foldedSeparation, abs_of_nonneg]
  exact ⟨hf1, hf2, (claim_C4 0 90).1 hf1, (claim_C4 0 (197/2)).2 hf2⟩

/-- C8: aspect detection is symmetric — `calculateAspect a b` and
`calculateAspect b a` return exactly the same result. -/
theorem claim_C8 (a b : ℚ) : calculateAspect a b = calculateAspect b a := by
  unfold calculateAspect foldedSeparation
  rw [abs_sub_comm]

/-- C9: `normalizeAngle` maps every angle into `[0,360)`, is the identity on
`[0,360)` (hence idempotent), sends 370° to 10° and −10° to 350°. -/
theorem claim_C9 :
    (∀ a : ℚ, 0 ≤ a → a < 360 → normalizeAngle a = a) ∧
    (∀ a : ℚ, 0 ≤ normalizeAngle a ∧ normalizeAngle a < 360) ∧
    (∀ a : ℚ, normalizeAngle (normalizeAngle a) = normalizeAngle a) ∧
    normalizeAngle 370 = 10 ∧ normalizeAngle (-10) = 350 := by
  refine ⟨fun _ h0 h1 => normalizeAngle_eq_self h0 h1, normalizeAngle_mem,
    normalizeAngle_idem, ?_, ?_⟩
  · norm_num [normalizeAngle, jsMod, jsTrunc]
  · have hc : ⌈(-(1/36) : ℚ)⌉ = 0 := by
      rw [Int.ceil_eq_zero_iff]
      constructor <;> norm_num
    norm_num [normalizeAngle, jsMod, jsTrunc, hc]

/-- Witness for C9: the identity-on-range part applied to the concrete
angle 5°. -/
theorem claim_C9_witness :
    (0:ℚ) ≤ 5 ∧ (5:ℚ) < 360 ∧ normalizeAngle 5 = 5 :=
  ⟨by norm_num, by norm_num, claim_C9.1 5 (by norm_num) (by norm_num)⟩

/-- The double-mod normalization of `getZodiacPosition` lands in `[0,360)`. -/
theorem zodiacNormalized_mem (l : ℚ) :
    0 ≤ jsMod (jsMod l 360 + 360) 360 ∧ jsMod (jsMod l 360 + 360) 360 < 360 := by
  have hx : 0 ≤ jsMod l 360 + 360 := by
    rcases le_or_lt 0 l with h | h
    · have := jsMod_nonneg_bounds h (by norm_num : (0:ℚ) < 360)
      linarith [this.1]
    · have := jsMod_neg_bounds h (by norm_num : (0:ℚ) < 360)
      linarith [this.1]
  exact jsMod_nonneg_bounds hx (by norm_num)

/-- C6: reconstructing `signIndex*30 + degree + minutes/60` from the zodiac
decomposition reproduces the normalized longitude to within strictly less
than 0.02° (the truncation to whole arc-minutes loses less than 1/60°). -/
theorem claim_C6 (l : ℚ) :
    |(((getZodiacPosition l).signIndex : ℚ) * 30 + ((getZodiacPosition l).degree : ℚ) +
      ((getZodiacPosition l).minutes : ℚ) / 60) - (getZodiacPosition l).longitude| <
      2/100 := by
  obtain ⟨hN0, hN1⟩ := zodiacNormalized_mem l
  set N := jsMod (jsMod l 360 + 360) 360 with hNdef
  have hsI : (getZodiacPosition l).signIndex = ⌊N / 30⌋ := rfl
  have hdeg : (getZodiacPosition l).degree = ⌊jsMod N 30⌋ := rfl
  have hmin : (getZodiacPosition l).minutes =
      ⌊(jsMod N 30 - (⌊jsMod N 30⌋ : ℚ)) * 60⌋ := rfl
  have hlong : (getZodiacPosition l).longitude = N := rfl
  rw [hsI, hdeg, hmin, hlong]
  have hdis : jsMod N 30 = N - 30 * ⌊N / 30⌋ :=
    jsMod_nonneg_eq hN0 (by norm_num)
  set dis := jsMod N 30 with hdisdef
  set d : ℤ := ⌊dis⌋ with hd
  set f : ℚ := dis - d with hf
  set m : ℤ := ⌊f * 60⌋ with hm
  have hfd1 : (d : ℚ) ≤ dis := Int.floor_le dis
  have hfd2 : dis < (d : ℚ) + 1 := Int.lt_floor_add_one dis
  have hfm1 : (m : ℚ) ≤ f * 60 := Int.floor_le (f * 60)
  have hfm2 : f * 60 < (m : ℚ) + 1 := Int.lt_floor_add_one (f * 60)
  have key : ((⌊N / 30⌋ : ℚ) * 30 + (d : ℚ) + (m : ℚ) / 60) - N = (m : ℚ) / 60 - f := by
    rw [hf]
    rw [hdis]
    ring
  rw [key, abs_lt]
  constructor <;> nlinarith

theorem gregorianLeap_iff (y : ℤ) :
    gregorianLeap y = true ↔ y % 4 = 0 ∧ (y % 100 ≠ 0 ∨ y % 400 = 0) := by
  simp [gregorianLeap]

theorem daysInMonthG_ge (y m : ℤ) : 28 ≤ daysInMonthG y m := by
  unfold daysInMonthG
  split
  · split <;> omega
  · split <;> omega

theorem daysInMonthG_le (y m : ℤ) : daysInMonthG y m ≤ 31 := by
  unfold daysInMonthG
  split
  · split <;> omega
  · split <;> omega

theorem floor_term_year (x : ℤ) :
    ⌊(365.25 : ℚ) * ((x : ℚ) + 4716)⌋ = 1461 * (x + 4716) / 4 := by
  rw [show (365.25:ℚ) * ((x:ℚ) + 4716) = ((1461 * (x + 4716) : ℤ) : ℚ) / ((4:ℕ):ℚ) by
        push_cast; ring,
      Rat.floor_intCast_div_natCast]
  norm_num

theorem floor_term_month (x : ℤ) :
    ⌊(30.6001 : ℚ) * ((x : ℚ) + 1)⌋ = 306001 * (x + 1) / 10000 := by
  rw [show (30.6001:ℚ) * ((x:ℚ) + 1) = ((306001 * (x + 1) : ℤ) : ℚ) / ((10000:ℕ):ℚ) by
        push_cast; ring,
      Rat.floor_intCast_div_natCast]
  norm_num

theorem floor_div100 (x : ℤ) : ⌊(x : ℚ) / 100⌋ = x / 100 := by
  rw [show ((x:ℚ)/100) = ((x:ℤ):ℚ)/((100:ℕ):ℚ) by norm_num,
      Rat.floor_intCast_div_natCast]
  norm_num

theorem floor_div4 (x : ℤ) : ⌊(x : ℚ) / 4⌋ = x / 4 := by
  rw [show ((x:ℚ)/4) = ((x:ℤ):ℚ)/((4:ℕ):ℚ) by norm_num,
      Rat.floor_intCast_div_natCast]
  norm_num

/-- `dateToJulianDay` decomposes as its integer skeleton plus the fractional
terms. -/
theorem dateToJulianDay_eq_JDNint (y m d : ℤ) (h : ℚ) :
    dateToJulianDay y m d h = (JDNint y m d : ℚ) + h / 24 - 1524.5 := by
  by_cases hm : m ≤ 2 <;>
    simp only [dateToJulianDay, JDNint, hm, if_true, if_false,
      floor_term_year, floor_term_month, floor_div100, floor_div4] <;>
    push_cast <;> ring

/-- Adjacent-month boundary: the last day of month `m` is immediately
followed by the 1st of month `m+1`. -/
theorem JDNint_month_step (y m : ℤ) (h1 : 1 ≤ m) (h2 : m ≤ 11) :
    JDNint y m (daysInMonthG y m) + 1 = JDNint y (m + 1) 1 := by
  rcases eq_or_ne m 2 with hm2 | hm2
  · subst hm2
    have e1 : 1461 * (y + 4716) / 4 = y / 4 + (365 * y + 1722519) := by
      rw [show 1461 * (y + 4716) = y + 4 * (365 * y + 1722519) by ring,
          Int.add_mul_ediv_left _ _ (by norm_num : (4:ℤ) ≠ 0)]
    have e2 : 1461 * (y - 1 + 4716) / 4 = (y + 3) / 4 + (365 * y + 1722153) := by
      rw [show 1461 * (y - 1 + 4716) = (y + 3) + 4 * (365 * y + 1722153) by ring,
          Int.add_mul_ediv_left _ _ (by norm_num : (4:ℤ) ≠ 0)]
    cases hb : gregorianLeap y
    · have hnl : ¬(y % 4 = 0 ∧ (y % 100 ≠ 0 ∨ y % 400 = 0)) := by
        rw [← gregorianLeap_iff, hb]; simp
      have h4 : y % 4 ≠ 0 ∨ (y % 100 = 0 ∧ y % 400 ≠ 0) := by
        by_cases h : y % 4 = 0
        · refine Or.inr ⟨?_, ?_⟩
          · by_contra hq
            exact hnl ⟨h, Or.inl hq⟩
          · intro hq
            exact hnl ⟨h, Or.inr hq⟩
        · exact Or.inl h
      simp only [JDNint, daysInMonthG, hb]
      norm_num
      rcases h4 with h | ⟨ha, hb2⟩ <;> omega
    · have hl : y % 4 = 0 ∧ (y % 100 ≠ 0 ∨ y % 400 = 0) :=
        (gregorianLeap_iff y).mp hb
      simp only [JDNint, daysInMonthG, hb]
      norm_num
      omega
  · interval_cases m <;> first
      | exact absurd rfl hm2
      | (simp only [JDNint, daysInMonthG]; norm_num; omega)

/-- Year boundary: December 31 is immediately followed by January 1. -/
theorem JDNint_year_step (y : ℤ) :
    JDNint y 12 31 + 1 = JDNint (y + 1) 1 1 := by
  simp only [JDNint]
  norm_num
  omega

theorem JDNint_day_le {y m d d' : ℤ} (h : d ≤ d') :
    JDNint y m d ≤ JDNint y m d' := by
  by_cases hm : m ≤ 2 <;> simp only [JDNint, hm, if_true, if_false] <;> omega

theorem JDNint_day_lt {y m d d' : ℤ} (h : d < d') :
    JDNint y m d < JDNint y m d' := by
  by_cases hm : m ≤ 2 <;> simp only [JDNint, hm, if_true, if_false] <;> omega

/-- Within one year, any day of an earlier month precedes any day of a
later month. -/
theorem JDNint_month_lt {y m1 d1 : ℤ} (hm1 : 1 ≤ m1)
    (hd1 : d1 ≤ daysInMonthG y m1) :
    ∀ m2, m1 + 1 ≤ m2 → m2 ≤ 12 → ∀ d2, 1 ≤ d2 →
      JDNint y m1 d1 < JDNint y m2 d2 := by
  refine Int.le_induction ?_ ?_
  · intro h12 d2 hd2
    have hs := JDNint_month_step y m1 hm1 (by omega)
    calc JDNint y m1 d1 ≤ JDNint y m1 (daysInMonthG y m1) := JDNint_day_le hd1
      _ < JDNint y (m1 + 1) 1 := by omega
      _ ≤ JDNint y (m1 + 1) d2 := JDNint_day_le hd2
  · intro n hn ih h12 d2 hd2
    have hprev : JDNint y m1 d1 < JDNint y n (daysInMonthG y n) :=
      ih (by omega) _ (by have := daysInMonthG_ge y n; omega)
    have hs := JDNint_month_step y n (by omega) (by omega)
    calc JDNint y m1 d1 < JDNint y n (daysInMonthG y n) := hprev
      _ < JDNint y (n + 1) 1 := by omega
      _ ≤ JDNint y (n + 1) d2 := JDNint_day_le hd2

theorem JDNint_le_year_end {y m d : ℤ} (hm1 : 1 ≤ m) (hm2 : m ≤ 12)
    (hd : d ≤ daysInMonthG y m) : JDNint y m d ≤ JDNint y 12 31 := by
  rcases eq_or_lt_of_le hm2 with he | hlt
  · subst he
    exact JDNint_day_le (by
      have : daysInMonthG y 12 = 31 := by norm_num [daysInMonthG]
      omega)
  · exact le_of_lt (JDNint_month_lt hm1 hd 12 (by omega) le_rfl 31 (by omega))

theorem JDNint_year_start_le {y m d : ℤ} (hm1 : 1 ≤ m) (hm2 : m ≤ 12)
    (hd : 1 ≤ d) : JDNint y 1 1 ≤ JDNint y m d := by
  rcases eq_or_lt_of_le hm1 with he | hlt
  · subst he
    exact JDNint_day_le hd
  · refine le_of_lt (JDNint_month_lt le_rfl ?_ m (by omega) hm2 d hd)
    have := daysInMonthG_ge y 1
    omega

/-- Across years: the end of an earlier year precedes the start of any
later year. -/
theorem JDNint_year_lt {y1 : ℤ} :
    ∀ y2, y1 + 1 ≤ y2 → JDNint y1 12 31 < JDNint y2 1 1 := by
  refine Int.le_induction ?_ ?_
  · have := JDNint_year_step y1
    omega
  · intro n hn ih
    have h1 : JDNint n 1 1 ≤ JDNint n 12 31 :=
      JDNint_year_start_le (by norm_num) (by norm_num) (by norm_num)
    have h2 := JDNint_year_step n
    omega

/-- Monotonicity of the integer skeleton over valid calendar dates in
lexicographic order. -/
theorem JDNint_strict_mono {y1 m1 d1 y2 m2 d2 : ℤ}
    (hm1a : 1 ≤ m1) (hm1b : m1 ≤ 12) (_hd1a : 1 ≤ d1) (hd1b : d1 ≤ daysInMonthG y1 m1)
    (hm2a : 1 ≤ m2) (hm2b : m2 ≤ 12) (hd2a : 1 ≤ d2)
    (hlt : y1 < y2 ∨ (y1 = y2 ∧ (m1 < m2 ∨ (m1 = m2 ∧ d1 < d2)))) :
    JDNint y1 m1 d1 < JDNint y2 m2 d2 := by
  rcases hlt with hy | ⟨hy, hm | ⟨hm, hd⟩⟩
  · calc JDNint y1 m1 d1 ≤ JDNint y1 12 31 := JDNint_le_year_end hm1a hm1b hd1b
      _ < JDNint y2 1 1 := JDNint_year_lt y2 (by omega)
      _ ≤ JDNint y2 m2 d2 := JDNint_year_start_le hm2a hm2b hd2a
  · subst hy
    exact JDNint_month_lt hm1a hd1b m2 (by omega) hm2b d2 hd2a
  · subst hy; subst hm
    exact JDNint_day_lt hd

/-- C5: `dateToJulianDay` is strictly monotonic over valid proleptic
Gregorian civil instants ordered lexicographically, across month and year
boundaries included. -/
theorem claim_C5 (y1 m1 d1 : ℤ) (h1 : ℚ) (y2 m2 d2 : ℤ) (h2 : ℚ)
    (hv1 : ValidCivil y1 m1 d1 h1) (hv2 : ValidCivil y2 m2 d2 h2)
    (hlt : CivilLt y1 m1 d1 h1 y2 m2 d2 h2) :
    dateToJulianDay y1 m1 d1 h1 < dateToJulianDay y2 m2 d2 h2 := by
  obtain ⟨ha1, hb1, hc1, hd1, he1, hf1⟩ := hv1
  obtain ⟨ha2, hb2, hc2, hd2, he2, hf2⟩ := hv2
  rw [dateToJulianDay_eq_JDNint, dateToJulianDay_eq_JDNint]
  by_cases hsame : y1 = y2 ∧ m1 = m2 ∧ d1 = d2
  · obtain ⟨hy, hm, hd⟩ := hsame
    have hh : h1 < h2 := by
      rcases hlt with h | ⟨_, h | ⟨_, h | ⟨_, h⟩⟩⟩ <;> first | omega | exact h
    rw [hy, hm, hd]
    have : h1 / 24 < h2 / 24 := by linarith
    linarith
  · have hdate : y1 < y2 ∨ (y1 = y2 ∧ (m1 < m2 ∨ (m1 = m2 ∧ d1 < d2))) := by
      rcases hlt with h | ⟨hy, h | ⟨hm, h | ⟨hd, h⟩⟩⟩
      · exact Or.inl h
      · exact Or.inr ⟨hy, Or.inl h⟩
      · exact Or.inr ⟨hy, Or.inr ⟨hm, h⟩⟩
      · exact absurd ⟨hy, hm, hd⟩ hsame
    have hint : JDNint y1 m1 d1 < JDNint y2 m2 d2 :=
      JDNint_strict_mono ha1 hb1 hc1 hd1 ha2 hb2 hc2 hdate
    have hint' : (JDNint y1 m1 d1 : ℚ) + 1 ≤ (JDNint y2 m2 d2 : ℚ) := by
      exact_mod_cast hint
    have hq1 : h1 / 24 < 1 := by linarith
    have hq2 : 0 ≤ h2 / 24 := by linarith
    linarith

/-- Witness for C5: 2019-02-28 23:00 precedes 2019-03-01 00:30 in Julian
Day, across a non-leap February boundary. -/
theorem claim_C5_witness :
    ValidCivil 2019 2 28 23 ∧ ValidCivil 2019 3 1 (1/2) ∧
    CivilLt 2019 2 28 23 2019 3 1 (1/2) ∧
    dateToJulianDay 2019 2 28 23 < dateToJulianDay 2019 3 1 (1/2) := by
  have h1 : ValidCivil 2019 2 28 23 := by
    refine ⟨by norm_num, by norm_num, by norm_num, ?_, by norm_num, by norm_num⟩
    norm_num [daysInMonthG, gregorianLeap]
  have h2 : ValidCivil 2019 3 1 (1/2) := by
    refine ⟨by norm_num, by norm_num, by norm_num, ?_, by norm_num, by norm_num⟩
    norm_num [daysInMonthG]
  have h3 : CivilLt 2019 2 28 23 2019 3 1 (1/2) := by
    right; exact ⟨rfl, by norm_num⟩
  exact ⟨h1, h2, h3, claim_C5 2019 2 28 23 2019 3 1 (1/2) h1 h2 h3⟩

/-- C2 counterexample: a birth at 01:00 local with timezone offset −3 on
March 1, 2020 does NOT roll back to the previous month: under the code's
convention (UTC = local − offset) it yields 04:00 UTC the same day. -/
theorem claim_C2_counterexample :
    calculateBirthChartUTC 2020 3 1 1 0 (-3) = ⟨2020, 3, 1, 4⟩ ∧
    ¬ ((calculateBirthChartUTC 2020 3 1 1 0 (-3)).month = 2 ∧
       (calculateBirthChartUTC 2020 3 1 1 0 (-3)).day = 29) := by
  have h : calculateBirthChartUTC 2020 3 1 1 0 (-3) = ⟨2020, 3, 1, 4⟩ := by
    norm_num [calculateBirthChartUTC, timeToDecimal, jsMod, jsTrunc]
  refine ⟨h, ?_⟩
  rw [h]
  intro hc
  exact absurd hc.1 (by norm_num)

/-- C2 amended: 23:30 local with timezone +2 stays on the same calendar
day at 21:30 UTC; and the roll-back to the last day of the previous month
(respecting month/year boundaries and month lengths) happens for a birth
at 01:00 local with timezone offset +3 (not −3): UTC is 22:00 of the
previous day. -/
theorem claim_C2_amended (y m d : ℤ) (hm1 : 1 ≤ m) (hm2 : m ≤ 12) :
    calculateBirthChartUTC y m d 23 30 2 = ⟨y, m, d, 43/2⟩ ∧
    calculateBirthChartUTC y m 1 1 0 3 =
      (if m = 1 then ⟨y - 1, 12, 31, 22⟩
       else ⟨y, m - 1, getDaysInMonth (m - 1) y, 22⟩) := by
  constructor
  · have h1 : timeToDecimal 23 30 0 - 2 = 43/2 := by
      norm_num [timeToDecimal]
    have h2 : jsMod (jsMod (43/2) 24 + 24) 24 = 43/2 := by
      norm_num [jsMod, jsTrunc]
    simp only [calculateBirthChartUTC, h1, h2]
    norm_num
  · have h1 : timeToDecimal 1 0 0 - 3 = -2 := by
      norm_num [timeToDecimal]
    have hc : ⌈(-(1/12) : ℚ)⌉ = 0 := by
      rw [Int.ceil_eq_zero_iff]
      constructor <;> norm_num
    have h2 : jsMod (jsMod (-2) 24 + 24) 24 = 22 := by
      norm_num [jsMod, jsTrunc, hc]
    rcases eq_or_lt_of_le hm1 with he | hgt
    · have hm : m = 1 := he.symm
      subst hm
      simp only [calculateBirthChartUTC, h1, h2]
      norm_num [getDaysInMonth]
    · have hne : ¬ (m = 1) := by omega
      simp only [calculateBirthChartUTC, h1, h2, if_neg hne]
      have hcond : ¬ (m - 1 < 1) := by omega
      norm_num [hcond]

/-- Witness for C2 amended, at March 2020 (whose previous month, February
2020, has 29 days). -/
theorem claim_C2_witness :
    (1:ℤ) ≤ 3 ∧ (3:ℤ) ≤ 12 ∧
    calculateBirthChartUTC 2020 3 15 23 30 2 = ⟨2020, 3, 15, 43/2⟩ ∧
    calculateBirthChartUTC 2020 3 1 1 0 3 = ⟨2020, 2, 29, 22⟩ := by
  have h := claim_C2_amended 2020 3 15 (by norm_num) (by norm_num)
  refine ⟨by norm_num, by norm_num, h.1, ?_⟩
  have h2 := h.2
  rw [if_neg (by norm_num)] at h2
  rw [h2]
  norm_num [getDaysInMonth, gregorianLeap]

/-- A negative angle in `(-360, 0)` normalizes by a single wrap. -/
theorem normalizeAngle_neg_eq {x : ℚ} (h0 : -360 < x) (h1 : x < 0) :
    normalizeAngle x = x + 360 :=
  normalizeAngle_eq_of (k := -1) (by push_cast; ring) (by linarith) (by linarith)

/-- Normalization can be dropped inside a sum before renormalizing. -/
theorem normalizeAngle_shift (x c : ℚ) :
    normalizeAngle (normalizeAngle x + c) = normalizeAngle (x + c) := by
  obtain ⟨k, hk⟩ := normalizeAngle_sub_int x
  have : x + c = (normalizeAngle x + c) + 360 * k := by linarith
  rw [this, normalizeAngle_add_int]

/-- The wrapped containment test for an interval of span 30° is equivalent
to the angular distance from the start cusp being under 30°. -/
theorem inWrappedInterval_iff_dist {s e p : ℚ} (hs0 : 0 ≤ s) (hs1 : s < 360)
    (hp0 : 0 ≤ p) (hp1 : p < 360) (he : e = normalizeAngle (s + 30)) :
    inWrappedInterval p s e ↔ normalizeAngle (p - s) < 30 := by
  unfold inWrappedInterval
  by_cases hcase : s < 330
  · have he' : e = s + 30 := by
      rw [he]; exact normalizeAngle_eq_self (by linarith) (by linarith)
    rw [if_neg (by rw [he']; linarith)]
    constructor
    · rintro ⟨hge, hlt⟩
      rw [he'] at hlt
      rw [normalizeAngle_eq_self (by linarith) (by linarith)]
      linarith
    · intro hlt
      by_cases hsp : s ≤ p
      · rw [normalizeAngle_eq_self (by linarith) (by linarith)] at hlt
        exact ⟨hsp, by rw [he']; linarith⟩
      · push_neg at hsp
        rw [normalizeAngle_neg_eq (by linarith) (by linarith)] at hlt
        linarith
  · push_neg at hcase
    have he' : e = s - 330 := by
      rw [he]
      exact normalizeAngle_eq_of (k := 1) (by push_cast; ring)
        (by linarith) (by linarith)
    rw [if_pos (by rw [he']; linarith)]
    constructor
    · rintro (hge | hlt)
      · rw [normalizeAngle_eq_self (by linarith) (by linarith)]
        linarith
      · rw [he'] at hlt
        rw [normalizeAngle_neg_eq (by linarith) (by linarith)]
        linarith
    · intro h
      by_cases hsp : s ≤ p
      · exact Or.inl hsp
      · push_neg at hsp
        rw [normalizeAngle_neg_eq (by linarith) (by linarith)] at h
        right
        rw [he']
        linarith

/-- Start cusp of loop iteration `i`. -/
theorem EqualCusps_start (asc : ℚ) (i : ℕ) :
    EqualCusps asc (i + 1) = normalizeAngle (asc + 30 * (i : ℚ)) := by
  unfold EqualCusps
  congr 1
  push_cast
  ring

/-- End cusp of loop iteration `i` sits 30° past its start cusp. -/
theorem EqualCusps_end (asc : ℚ) (i : ℕ) (hi : i < 12) :
    EqualCusps asc ((i + 1) % 12 + 1) =
      normalizeAngle (EqualCusps asc (i + 1) + 30) := by
  rcases Nat.lt_or_ge i 11 with h11 | h11
  · rw [Nat.mod_eq_of_lt (by omega)]
    rw [EqualCusps_start, EqualCusps_start, normalizeAngle_shift]
    congr 1
    push_cast
    ring
  · have hi11 : i = 11 := by omega
    subst hi11
    rw [show (11 + 1) % 12 = 0 by norm_num]
    rw [EqualCusps_start, EqualCusps_start, normalizeAngle_shift]
    have h1 : asc + 30 * ((0:ℕ) : ℚ) = asc := by push_cast; ring
    have h2 : asc + 30 * ((11:ℕ) : ℚ) + 30 = asc + 360 * ((1:ℤ) : ℚ) := by
      push_cast; ring
    rw [h1, h2, normalizeAngle_add_int]

/-- Loop iteration `i` succeeds exactly when the planet's angular distance
from the Ascendant lies in `[30i, 30(i+1))`. -/
theorem houseIntervalTest_iff (asc p : ℚ)
    (hp0 : 0 ≤ p) (hp1 : p < 360) (i : ℕ) (hi : i < 12) :
    houseIntervalTest p (EqualCusps asc) i = true ↔
      (30 * (i : ℚ) ≤ normalizeAngle (p - asc) ∧
       normalizeAngle (p - asc) < 30 * ((i : ℚ) + 1)) := by
  have hs := EqualCusps_start asc i
  obtain ⟨hs0, hs1⟩ : 0 ≤ EqualCusps asc (i + 1) ∧ EqualCusps asc (i + 1) < 360 := by
    rw [hs]; exact normalizeAngle_mem _
  rw [houseIntervalTest, decide_eq_true_eq,
      inWrappedInterval_iff_dist hs0 hs1 hp0 hp1 (EqualCusps_end asc i hi)]
  obtain ⟨hD0, hD1⟩ := normalizeAngle_mem (p - asc)
  obtain ⟨kD, hkD⟩ := normalizeAngle_sub_int (p - asc)
  set D := normalizeAngle (p - asc) with hDdef
  obtain ⟨ks, hks⟩ := normalizeAngle_sub_int (asc + 30 * (i : ℚ))
  have hps : normalizeAngle (p - EqualCusps asc (i + 1)) =
      normalizeAngle (D - 30 * (i : ℚ)) := by
    rw [hs]
    have harg : p - normalizeAngle (asc + 30 * (i : ℚ)) =
        (D - 30 * (i : ℚ)) + 360 * ((ks + kD : ℤ) : ℚ) := by
      push_cast
      linarith
    rw [harg, normalizeAngle_add_int]
  rw [hps]
  have hin : (i : ℚ) ≤ 11 := by
    exact_mod_cast Nat.le_of_lt_succ hi
  constructor
  · intro hlt
    by_cases hge : 30 * (i : ℚ) ≤ D
    · rw [normalizeAngle_eq_self (by linarith) (by linarith)] at hlt
      exact ⟨hge, by linarith⟩
    · push_neg at hge
      rw [normalizeAngle_neg_eq (by nlinarith) (by linarith)] at hlt
      nlinarith
  · rintro ⟨hge, hlt⟩
    rw [normalizeAngle_eq_self (by linarith) (by linarith)]
    linarith

/-- `find?` returns the element when it is the unique satisfier in the
list. -/
theorem find?_eq_some_unique {pr : ℕ → Bool} {l : List ℕ} {a : ℕ}
    (ha : a ∈ l) (hpa : pr a = true) (h : ∀ b ∈ l, pr b = true → b = a) :
    l.find? pr = some a := by
  induction l with
  | nil => cases ha
  | cons x xs ih =>
    cases hx : pr x
    · have ha' : a ∈ xs := by
        rcases List.mem_cons.mp ha with h1 | h1
        · rw [h1] at hpa
          rw [hpa] at hx
          cases hx
        · exact h1
      rw [List.find?_cons, hx]
      exact ih ha' (fun b hb hpb => h b (List.mem_cons_of_mem _ hb) hpb)
    · have hxa : x = a := h x (List.mem_cons_self x xs) hx
      rw [List.find?_cons, hx, hxa]

/-- Full characterisation of the `getHousePosition` loop over an
equal-interval cusp table: a unique interval index `j` matches, and the
function returns `j + 1`. -/
theorem getHousePosition_spec (asc p : ℚ) (hp0 : 0 ≤ p) (hp1 : p < 360) :
    ∃ j : ℕ, j < 12 ∧ houseIntervalTest p (EqualCusps asc) j = true ∧
      (∀ k, k < 12 → houseIntervalTest p (EqualCusps asc) k = true → k = j) ∧
      getHousePosition p (EqualCusps asc) = j + 1 ∧
      (List.range 12).find? (fun k => houseIntervalTest p (EqualCusps asc) k) =
        some j := by
  obtain ⟨hD0, hD1⟩ := normalizeAngle_mem (p - asc)
  set D := normalizeAngle (p - asc) with hDdef
  have hdiv0 : 0 ≤ D / 30 := by positivity
  have hfl0 : 0 ≤ ⌊D / 30⌋ := Int.floor_nonneg.mpr hdiv0
  set j : ℕ := (⌊D / 30⌋).toNat with hjdef
  have hjcast' : (j : ℚ) = (⌊D / 30⌋ : ℚ) := by
    rw [hjdef]
    exact_mod_cast Int.toNat_of_nonneg hfl0
  have hj1 : 30 * (j : ℚ) ≤ D := by
    have := Int.floor_le (D / 30)
    rw [hjcast']
    linarith [this, (by linarith : (⌊D / 30⌋ : ℚ) * 30 ≤ D / 30 * 30)]
  have hj2 : D < 30 * ((j : ℚ) + 1) := by
    have := Int.lt_floor_add_one (D / 30)
    rw [hjcast']
    nlinarith
  have hjlt : j < 12 := by
    have hlt : ⌊D / 30⌋ < 12 := Int.floor_lt.mpr (by linarith [div_lt_iff₀ (by norm_num : (0:ℚ) < 30) |>.mpr (by linarith : D < 12 * 30)])
    omega
  have htest : houseIntervalTest p (EqualCusps asc) j = true :=
    (houseIntervalTest_iff asc p hp0 hp1 j hjlt).mpr ⟨hj1, hj2⟩
  have huniq : ∀ k, k < 12 → houseIntervalTest p (EqualCusps asc) k = true → k = j := by
    intro k hk htk
    obtain ⟨h1, h2⟩ := (houseIntervalTest_iff asc p hp0 hp1 k hk).mp htk
    have hk1 : (k : ℚ) < (j : ℚ) + 1 := by linarith
    have hk2 : (j : ℚ) < (k : ℚ) + 1 := by linarith
    have hk1' : k < j + 1 := by exact_mod_cast hk1
    have hk2' : j < k + 1 := by exact_mod_cast hk2
    omega
  have hfind : (List.range 12).find?
      (fun k => houseIntervalTest p (EqualCusps asc) k) = some j :=
    find?_eq_some_unique (List.mem_range.mpr hjlt) htest
      (fun b hb => huniq b (List.mem_range.mp hb))
  refine ⟨j, hjlt, htest, huniq, ?_, hfind⟩
  rw [getHousePosition, hfind]

/-- The Ascendant computed by `calculateHouses` is a normalized angle. -/
theorem calculateHouses_ascendant_mem (mth : JsMath) (JD lat lon : ℚ) :
    0 ≤ (calculateHouses mth JD lat lon).ascendant ∧
      (calculateHouses mth JD lat lon).ascendant < 360 :=
  normalizeAngle_mem _

theorem calculateHouses_cusps_eq (mth : JsMath) (JD lat lon : ℚ) :
    (calculateHouses mth JD lat lon).cusps =
      EqualCusps (calculateHouses mth JD lat lon).ascendant := rfl

/-- Loop index `i - 1` (for house number `i`) tests exactly the interval
from cusp `i` to cusp `i % 12 + 1`. -/
theorem houseIntervalTest_bridge (p : ℚ) (C : ℕ → ℚ) (i : ℕ) (h1 : 1 ≤ i) :
    houseIntervalTest p C (i - 1) =
      decide (inWrappedInterval p (C i) (C (i % 12 + 1))) := by
  unfold houseIntervalTest
  rw [Nat.sub_add_cancel h1]

/-- C10: over any frame produced by `calculateHouses` and any normalized
longitude, `getHousePosition` returns house `i` exactly when the longitude
lies in the wrapped half-open interval from cusp `i` to the next cusp;
that interval is unique, a longitude equal to cusp `i` falls in house `i`,
and the loop always finds a match (the trailing `return 1` fallback is
unreachable). -/
theorem claim_C10 (mth : JsMath) (JD lat lon p : ℚ)
    (hp0 : 0 ≤ p) (hp1 : p < 360) :
    (∀ i : ℕ, 1 ≤ i → i ≤ 12 →
      (getHousePosition p (calculateHouses mth JD lat lon).cusps = i ↔
        inWrappedInterval p ((calculateHouses mth JD lat lon).cusps i)
          ((calculateHouses mth JD lat lon).cusps (i % 12 + 1)))) ∧
    (∃! i : ℕ, (1 ≤ i ∧ i ≤ 12) ∧
      inWrappedInterval p ((calculateHouses mth JD lat lon).cusps i)
        ((calculateHouses mth JD lat lon).cusps (i % 12 + 1))) ∧
    (∀ i : ℕ, 1 ≤ i → i ≤ 12 →
      getHousePosition ((calculateHouses mth JD lat lon).cusps i)
        (calculateHouses mth JD lat lon).cusps = i) ∧
    ((List.range 12).find?
      (fun k => houseIntervalTest p (calculateHouses mth JD lat lon).cusps k)).isSome
      = true := by
  obtain ⟨hA0, hA1⟩ := calculateHouses_ascendant_mem mth JD lat lon
  rw [calculateHouses_cusps_eq]
  set A := (calculateHouses mth JD lat lon).ascendant with hAdef
  obtain ⟨j, hj12, htj, huni, hghp, hfind⟩ := getHousePosition_spec A p hp0 hp1
  have hiff : ∀ i : ℕ, 1 ≤ i → i ≤ 12 →
      (inWrappedInterval p (EqualCusps A i) (EqualCusps A (i % 12 + 1)) ↔
        houseIntervalTest p (EqualCusps A) (i - 1) = true) := by
    intro i h1 h12
    rw [houseIntervalTest_bridge p (EqualCusps A) i h1, decide_eq_true_eq]
  refine ⟨?_, ?_, ?_, ?_⟩
  · intro i h1 h12
    constructor
    · intro hgp
      have hij : i = j + 1 := by omega
      rw [hiff i h1 h12]
      have : i - 1 = j := by omega
      rw [this]
      exact htj
    · intro hin
      have ht := (hiff i h1 h12).mp hin
      have : i - 1 = j := huni (i - 1) (by omega) ht
      omega
  · refine ⟨j + 1, ⟨⟨by omega, by omega⟩, ?_⟩, ?_⟩
    · rw [hiff (j + 1) (by omega) (by omega)]
      have : j + 1 - 1 = j := by omega
      rw [this]
      exact htj
    · rintro y ⟨⟨hy1, hy12⟩, hyin⟩
      have ht := (hiff y hy1 hy12).mp hyin
      have : y - 1 = j := huni (y - 1) (by omega) ht
      omega
  · intro i h1 h12
    have hpc := normalizeAngle_mem (A + ((i : ℚ) - 1) * 30)
    obtain ⟨j', hj'12, htj', huni', hghp', _⟩ :=
      getHousePosition_spec A (EqualCusps A i) hpc.1 hpc.2
    have hD' : normalizeAngle (EqualCusps A i - A) = ((i : ℚ) - 1) * 30 := by
      obtain ⟨k, hk⟩ := normalizeAngle_sub_int (A + ((i : ℚ) - 1) * 30)
      have harg : EqualCusps A i - A =
          ((i : ℚ) - 1) * 30 + 360 * ((-k : ℤ) : ℚ) := by
        unfold EqualCusps
        push_cast
        linarith
      rw [harg, normalizeAngle_add_int]
      refine normalizeAngle_eq_self (by nlinarith [(by exact_mod_cast h1 : (1:ℚ) ≤ (i:ℚ))]) ?_
      have : (i : ℚ) ≤ 12 := by exact_mod_cast h12
      nlinarith
    have htest : houseIntervalTest (EqualCusps A i) (EqualCusps A) (i - 1) = true := by
      rw [houseIntervalTest_iff A (EqualCusps A i) hpc.1 hpc.2 (i - 1) (by omega)]
      rw [hD']
      have hcast : ((i - 1 : ℕ) : ℚ) = (i : ℚ) - 1 := by
        push_cast [Nat.cast_sub h1]
        ring
      rw [hcast]
      constructor
      · linarith
      · linarith
    have : i - 1 = j' := huni' (i - 1) (by omega) htest
    omega
  · rw [hfind]
    rfl

/-- C7: when the interval from cusp 12 to cusp 1 crosses the 360°/0°
boundary, any longitude at or past cusp 12 or before cusp 1 is assigned
house 12 — no failure and no defaulting to house 1. -/
theorem claim_C7 (mth : JsMath) (JD lat lon p : ℚ)
    (hp0 : 0 ≤ p) (hp1 : p < 360)
    (hcross : (calculateHouses mth JD lat lon).cusps 1 <
      (calculateHouses mth JD lat lon).cusps 12)
    (hmem : p ≥ (calculateHouses mth JD lat lon).cusps 12 ∨
      p < (calculateHouses mth JD lat lon).cusps 1) :
    getHousePosition p (calculateHouses mth JD lat lon).cusps = 12 := by
  rw [calculateHouses_cusps_eq] at hcross hmem ⊢
  set A := (calculateHouses mth JD lat lon).ascendant with hAdef
  obtain ⟨j, hj12, htj, huni, hghp, hfind⟩ := getHousePosition_spec A p hp0 hp1
  have h11 : houseIntervalTest p (EqualCusps A) 11 = true := by
    unfold houseIntervalTest
    rw [show (11 + 1) % 12 + 1 = 1 by norm_num, decide_eq_true_eq]
    unfold inWrappedInterval
    rw [if_pos hcross]
    exact hmem
  have : 11 = j := huni 11 (by norm_num) h11
  omega

theorem mathStub_houses_ascendant :
    (calculateHouses mathStub J2000 0 0).ascendant = 0 := by
  show normalizeAngle _ = 0
  norm_num [mathStub, normalizeAngle, jsMod, jsTrunc]

theorem mathStub_houses_cusp (i : ℕ) :
    (calculateHouses mathStub J2000 0 0).cusps i =
      normalizeAngle (((i : ℚ) - 1) * 30) := by
  rw [calculateHouses_cusps_eq, mathStub_houses_ascendant]
  unfold EqualCusps
  norm_num

/-- Witness for C7: with the stub library the Ascendant is 0°, cusp 12 is
330°, cusp 1 is 0°, and the longitude 340° resolves to house 12. -/
theorem claim_C7_witness :
    (0:ℚ) ≤ 340 ∧ (340:ℚ) < 360 ∧
    (calculateHouses mathStub J2000 0 0).cusps 1 <
      (calculateHouses mathStub J2000 0 0).cusps 12 ∧
    ((340:ℚ) ≥ (calculateHouses mathStub J2000 0 0).cusps 12 ∨
      (340:ℚ) < (calculateHouses mathStub J2000 0 0).cusps 1) ∧
    getHousePosition 340 (calculateHouses mathStub J2000 0 0).cusps = 12 := by
  have hc1 : (calculateHouses mathStub J2000 0 0).cusps 1 = 0 := by
    rw [mathStub_houses_cusp]
    norm_num [normalizeAngle, jsMod, jsTrunc]
  have hc12 : (calculateHouses mathStub J2000 0 0).cusps 12 = 330 := by
    rw [mathStub_houses_cusp]
    norm_num [normalizeAngle, jsMod, jsTrunc]
  have hcross : (calculateHouses mathStub J2000 0 0).cusps 1 <
      (calculateHouses mathStub J2000 0 0).cusps 12 := by
    rw [hc1, hc12]; norm_num
  have hmem : (340:ℚ) ≥ (calculateHouses mathStub J2000 0 0).cusps 12 ∨
      (340:ℚ) < (calculateHouses mathStub J2000 0 0).cusps 1 := by
    left; rw [hc12]; norm_num
  exact ⟨by norm_num, by norm_num, hcross, hmem,
    claim_C7 mathStub J2000 0 0 340 (by norm_num) (by norm_num) hcross hmem⟩

/-- Witness for C10: longitude 45° lies in the wrapped interval from cusp 2
(30°) to cusp 3 (60°) of the stub frame, and `getHousePosition` returns
house 2. -/
theorem claim_C10_witness :
    (0:ℚ) ≤ 45 ∧ (45:ℚ) < 360 ∧
    inWrappedInterval 45 ((calculateHouses mathStub J2000 0 0).cusps 2)
      ((calculateHouses mathStub J2000 0 0).cusps (2 % 12 + 1)) ∧
    getHousePosition 45 (calculateHouses mathStub J2000 0 0).cusps = 2 := by
  have hc2 : (calculateHouses mathStub J2000 0 0).cusps 2 = 30 := by
    rw [mathStub_houses_cusp]
    norm_num [normalizeAngle, jsMod, jsTrunc]
  have hc3 : (calculateHouses mathStub J2000 0 0).cusps (2 % 12 + 1) = 60 := by
    rw [show 2 % 12 + 1 = 3 by norm_num, mathStub_houses_cusp]
    norm_num [normalizeAngle, jsMod, jsTrunc]
  have hin : inWrappedInterval 45 ((calculateHouses mathStub J2000 0 0).cusps 2)
      ((calculateHouses mathStub J2000 0 0).cusps (2 % 12 + 1)) := by
    rw [hc2, hc3]
    unfold inWrappedInterval
    norm_num
  have h := (claim_C10 mathStub J2000 0 0 45 (by norm_num) (by norm_num)).1
    2 (by norm_num) (by norm_num)
  exact ⟨by norm_num, by norm_num, hin, h.mpr hin⟩

/-- Any code outside the recognized table is served with Mars' elements:
longitude, latitude and distance agree with the Mars computation. -/
theorem calculateOuterPlanet_default (mth : JsMath) (JD : ℚ) (code : ℤ)
    (h2 : code ≠ 2) (h3 : code ≠ 3) (h4 : code ≠ 4) (h5 : code ≠ 5)
    (h6 : code ≠ 6) (h7 : code ≠ 7) (h8 : code ≠ 8) (h9 : code ≠ 9)
    (h11 : code ≠ 11) (h15 : code ≠ 15) :
    (calculateOuterPlanet mth JD code).longitude =
      (calculateOuterPlanet mth JD 4).longitude ∧
    (calculateOuterPlanet mth JD code).latitude =
      (calculateOuterPlanet mth JD 4).latitude ∧
    (calculateOuterPlanet mth JD code).distance =
      (calculateOuterPlanet mth JD 4).distance := by
  have hel : planetElements ((JD - J2000) / 36525) code = marsElements := by
    unfold planetElements
    simp [h2, h3, h4, h5, h6, h7, h8, h9, h11, h15]
  have hel4 : planetElements ((JD - J2000) / 36525) 4 = marsElements := by
    unfold planetElements
    norm_num
  simp only [calculateOuterPlanet, hel, hel4, if_neg h11,
    if_neg (by norm_num : ¬ (4:ℤ) = 11)]
  exact ⟨trivial, trivial, trivial⟩

/-- C1 counterexample: the unrecognized body code 99 does not fail — the
Position Calculator returns a position computed from Mars' orbital
elements (identical longitude, latitude and distance to the Mars call). -/
theorem claim_C1_counterexample :
    (calculateOuterPlanet mathStub J2000 99).longitude =
      (calculateOuterPlanet mathStub J2000 4).longitude ∧
    (calculateOuterPlanet mathStub J2000 99).latitude =
      (calculateOuterPlanet mathStub J2000 4).latitude ∧
    (calculateOuterPlanet mathStub J2000 99).distance =
      (calculateOuterPlanet mathStub J2000 4).distance :=
  calculateOuterPlanet_default mathStub J2000 99
    (by norm_num) (by norm_num) (by norm_num) (by norm_num) (by norm_num)
    (by norm_num) (by norm_num) (by norm_num) (by norm_num) (by norm_num)

/-- C1 amended: for every body code outside the recognized table, both
`calculateOuterPlanet` and `calculatePlanetPosition` silently fall back to
Mars' orbital elements instead of failing: the returned longitude,
latitude and distance equal those of the Mars computation (no error path
exists in the source; only the retrograde heuristic can differ, since an
unrecognized code compares greater than Mars' code). -/
theorem claim_C1_amended (mth : JsMath) (JD : ℚ) (code : ℤ)
    (hcode : code ∉ ([0, 1, 2, 3, 4, 5, 6, 7, 8, 9, 11, 15] : List ℤ)) :
    (calculateOuterPlanet mth JD code).longitude =
      (calculateOuterPlanet mth JD 4).longitude ∧
    (calculateOuterPlanet mth JD code).latitude =
      (calculateOuterPlanet mth JD 4).latitude ∧
    (calculateOuterPlanet mth JD code).distance =
      (calculateOuterPlanet mth JD 4).distance ∧
    (calculatePlanetPosition mth JD code).longitude =
      (calculatePlanetPosition mth JD 4).longitude := by
  simp only [List.mem_cons, List.not_mem_nil, or_false, not_or] at hcode
  obtain ⟨h0, h1, h2, h3, h4, h5, h6, h7, h8, h9, h11, h15⟩ := hcode
  obtain ⟨hlon, hlat, hdist⟩ :=
    calculateOuterPlanet_default mth JD code h2 h3 h4 h5 h6 h7 h8 h9 h11 h15
  refine ⟨hlon, hlat, hdist, ?_⟩
  simp only [calculatePlanetPosition, if_neg h0, if_neg h1,
    if_neg (by norm_num : ¬ (4:ℤ) = 0), if_neg (by norm_num : ¬ (4:ℤ) = 1)]
  rw [hlon]

/-- Witness for C1 at the unrecognized code 99. -/
theorem claim_C1_witness :
    ((99:ℤ) ∉ ([0, 1, 2, 3, 4, 5, 6, 7, 8, 9, 11, 15] : List ℤ)) ∧
    (calculatePlanetPosition mathStub J2000 99).longitude =
      (calculatePlanetPosition mathStub J2000 4).longitude := by
  have hm : (99:ℤ) ∉ ([0, 1, 2, 3, 4, 5, 6, 7, 8, 9, 11, 15] : List ℤ) := by
    norm_num
  exact ⟨hm, (claim_C1_amended mathStub J2000 99 hm).2.2.2⟩

/-- The retrograde flag and signed speed of a non-node body past Mars,
characterised by its solar elongation. -/
theorem calculateOuterPlanet_retroSpec (mth : JsMath) (JD : ℚ) (code : ℤ)
    (hne : code ≠ 11) (h4 : 4 < code)
    (ha : 0 < (planetElements ((JD - J2000) / 36525) code).a)
    (hsq : 0 < mth.sqrt ((planetElements ((JD - J2000) / 36525) code).a)) :
    ((calculateOuterPlanet mth JD code).isRetrograde = true ↔
      (120 < normalizeAngle ((calculateOuterPlanet mth JD code).longitude -
          (calculateSunPosition mth JD).longitude) ∧
        normalizeAngle ((calculateOuterPlanet mth JD code).longitude -
          (calculateSunPosition mth JD).longitude) < 240)) ∧
    ((calculateOuterPlanet mth JD code).isRetrograde = true →
      (calculateOuterPlanet mth JD code).longitudeSpeed < 0) ∧
    ((calculateOuterPlanet mth JD code).isRetrograde = false →
      0 < (calculateOuterPlanet mth JD code).longitudeSpeed) := by
  have hdm : 0 < 360 / ((planetElements ((JD - J2000) / 36525) code).a *
      (planetElements ((JD - J2000) / 36525) code).a *
      mth.sqrt ((planetElements ((JD - J2000) / 36525) code).a) * 365.25) := by
    refine div_pos (by norm_num) ?_
    have := mul_pos (mul_pos (mul_pos ha ha) hsq)
      (by norm_num : (0:ℚ) < 365.25)
    linarith
  simp only [calculateOuterPlanet, if_neg hne]
  constructor
  · simp [h4]
  constructor
  · intro h
    rw [decide_eq_true_eq] at h
    simp only [h4, true_and] at h
    rw [if_pos (by rw [decide_eq_true_eq]; exact ⟨h4, h⟩)]
    nlinarith [hdm]
  · intro h
    rw [decide_eq_false_iff_not] at h
    rw [if_neg (by rw [decide_eq_true_eq]; exact h)]
    nlinarith [hdm]

/-- C3: for every planet beyond Mars (Jupiter 5, Saturn 6, Uranus 7,
Neptune 8, Pluto 9, and the minor body Chiron 15) and every Julian Day,
the retrograde flag holds exactly when the elongation from the Sun
(planet longitude minus Sun longitude, normalized to `[0,360)`) lies
strictly between 120° and 240°; a retrograde flag forces a negative
longitudinal speed and a clear flag forces a positive one (given that the
library square root is positive on positive inputs, as `Math.sqrt` is). -/
theorem claim_C3 (mth : JsMath) (JD : ℚ) (code : ℤ)
    (hcode : code ∈ ([5, 6, 7, 8, 9, 15] : List ℤ))
    (hsqrt : ∀ x : ℚ, 0 < x → 0 < mth.sqrt x) :
    ((calculateOuterPlanet mth JD code).isRetrograde = true ↔
      (120 < normalizeAngle ((calculateOuterPlanet mth JD code).longitude -
          (calculateSunPosition mth JD).longitude) ∧
        normalizeAngle ((calculateOuterPlanet mth JD code).longitude -
          (calculateSunPosition mth JD).longitude) < 240)) ∧
    ((calculateOuterPlanet mth JD code).isRetrograde = true →
      (calculateOuterPlanet mth JD code).longitudeSpeed < 0) ∧
    ((calculateOuterPlanet mth JD code).isRetrograde = false →
      0 < (calculateOuterPlanet mth JD code).longitudeSpeed) := by
  have ha : 0 < (planetElements ((JD - J2000) / 36525) code).a := by
    fin_cases hcode <;> norm_num [planetElements]
  have hne : code ≠ 11 := by
    fin_cases hcode <;> norm_num
  have h4 : 4 < code := by
    fin_cases hcode <;> norm_num
  exact calculateOuterPlanet_retroSpec mth JD code hne h4 ha (hsqrt _ ha)

/-- Witness for C3 at Jupiter (code 5) on J2000 with the positive-root
stub library. -/
theorem claim_C3_witness :
    ((5:ℤ) ∈ ([5, 6, 7, 8, 9, 15] : List ℤ)) ∧
    (((calculateOuterPlanet mathStubOne J2000 5).isRetrograde = true ↔
      (120 < normalizeAngle ((calculateOuterPlanet mathStubOne J2000 5).longitude -
          (calculateSunPosition mathStubOne J2000).longitude) ∧
        normalizeAngle ((calculateOuterPlanet mathStubOne J2000 5).longitude -
          (calculateSunPosition mathStubOne J2000).longitude) < 240)) ∧
    ((calculateOuterPlanet mathStubOne J2000 5).isRetrograde = true →
      (calculateOuterPlanet mathStubOne J2000 5).longitudeSpeed < 0) ∧
    ((calculateOuterPlanet mathStubOne J2000 5).isRetrograde = false →
      0 < (calculateOuterPlanet mathStubOne J2000 5).longitudeSpeed)) :=
  ⟨by norm_num,
   claim_C3 mathStubOne J2000 5 (by norm_num) (fun _ _ => one_pos)⟩

end AstroEngine
